import Mathlib

/-!
Verification development for the schema-keyword evaluation engine of
`jsonschema-valid` (`src/validators.rs`).

The embedding is a direct translation of `src/validators.rs`:

* `JValue` mirrors `serde_json::Value`; `JNum` mirrors `serde_json::Number`
  with its three encodings `PosInt(u64)` / `NegInt(i64)` / `Float(f64)`.
  Floating-point payloads are modelled as rationals (every JSON float
  literal denotes a rational; NaN/infinity cannot appear in parsed JSON).
* Mappings are modelled as insertion-ordered association lists.  The
  choice of map representation is fixed outside `src/` (a serde_json
  feature flag in the crate manifest); the specification states that
  mappings preserve insertion order, so the model follows the spec here.
* Rust panics (`unwrap`, `expect`, integer remainder by zero) are modelled
  by the `RResult.crashed` outcome, which propagates through every
  combinator, exactly as a panic unwinds through the Rust code.
* Recursion through `run_validators` is fuel-indexed; `RResult.outOfFuel`
  marks fuel exhaustion and is distinct from every behaviour of the code.
-/

namespace JsonSchemaValid

/-- Number model mirroring `serde_json::Number`: the three payload
encodings `PosInt(u64)`, `NegInt(i64)`, `Float(f64)`, with the float
payload modelled as a rational number. -/
inductive JNum where
  | uint (n : Nat)
  | int (i : Int)
  | float (q : ℚ)
deriving DecidableEq

/-- Value model mirroring `serde_json::Value`.  Objects are
insertion-ordered association lists (see the module comment). -/
inductive JValue where
  | null
  | bool (b : Bool)
  | num (n : JNum)
  | str (s : String)
  | arr (elems : List JValue)
  | obj (entries : List (String × JValue))

/-- Mirrors `serde_json::Number::is_f64`. -/
def JNum.is_f64 : JNum → Bool
  | .float _ => true
  | _ => false

/-- Mirrors `serde_json::Number::is_u64`. -/
def JNum.is_u64 : JNum → Bool
  | .uint _ => true
  | _ => false

/-- Mirrors `serde_json::Number::is_i64`: a `PosInt` fits when it is at
most `i64::MAX`; a `NegInt` always fits; a float never reports `i64`. -/
def JNum.is_i64 : JNum → Bool
  | .uint n => n ≤ 2 ^ 63 - 1
  | .int _ => true
  | .float _ => false

/-- Mirrors `serde_json::Number::as_u64`: only the `PosInt` encoding
yields a value. -/
def JNum.as_u64 : JNum → Option Nat
  | .uint n => some n
  | _ => none

/-- Mirrors `serde_json::Number::as_i64`. -/
def JNum.as_i64 : JNum → Option Int
  | .uint n => if n ≤ 2 ^ 63 - 1 then some (n : Int) else none
  | .int i => some i
  | .float _ => none

/-- Mirrors `serde_json::Number::as_f64`, which succeeds on every
encoding; the numeric value is returned as a rational. -/
def JNum.as_f64 : JNum → ℚ
  | .uint n => (n : ℚ)
  | .int i => (i : ℚ)
  | .float q => q

/-- Truncation toward zero, mirroring `f64::trunc`. -/
def truncQ (q : ℚ) : Int := q.num.sign * (q.num.natAbs / q.den : Nat)

/-- Equality of `serde_json::Number` (`PartialEq` on the `N` enum):
distinct encoding variants are never equal; within a variant payloads are
compared. -/
def numEq : JNum → JNum → Bool
  | .uint a, .uint b => a == b
  | .int a, .int b => a == b
  | .float a, .float b => a == b
  | _, _ => false

/-- Mirrors `serde_json`'s map lookup (`Map::get` / `contains_key`):
first entry whose key matches. -/
def lookupJ : String → List (String × JValue) → Option JValue
  | _, [] => none
  | k, (k', v) :: rest => if k' == k then some v else lookupJ k rest

mutual

/-- Structural equality of values, mirroring `serde_json::Value`'s
`PartialEq` (used by the `instance != schema` test in `validate_const`
and the `val == instance` test in `validate_enum`).  Numbers compare by
encoding variant and payload; arrays pointwise; objects by length plus a
per-key lookup of the left entries in the right map. -/
def values_eq : JValue → JValue → Bool
  | .null, .null => true
  | .bool a, .bool b => a == b
  | .num a, .num b => numEq a b
  | .str a, .str b => a == b
  | .arr xs, .arr ys => listEq xs ys
  | .obj m1, .obj m2 => (m1.length == m2.length) && objSub m1 m2
  | _, _ => false

/-- Pointwise equality of arrays, mirroring slice `PartialEq`. -/
def listEq : List JValue → List JValue → Bool
  | [], [] => true
  | x :: xs, y :: ys => values_eq x y && listEq xs ys
  | _, _ => false

/-- Mirrors the map-equality loop: every entry of the left map is looked
up in the right map and the values compared. -/
def objSub : List (String × JValue) → List (String × JValue) → Bool
  | [], _ => true
  | (k, v) :: rest, m2 =>
      (match lookupJ k m2 with
       | some v2 => values_eq v v2
       | none => false) && objSub rest m2

end

/-! ## Hash model

`ValueWrapper::hash` feeds a `std::hash::Hasher`.  A `Hasher` is a stream
consumer: two values receive equal hashes for every hasher exactly when
they feed the hasher identical streams of primitive writes.  We therefore
model the hash of a value as the list of primitive tokens it writes. -/

/-- Primitive write issued to the `Hasher`: a string write (`str::hash`
writes the bytes plus a separator), a 64-bit word (`u64::hash`,
`i64::hash` and the `to_bits` of a float all funnel into `write_u64`),
a byte (`bool::hash`), or an `i32` (the literal `0.hash` for null). -/
inductive HTok where
  | hstr (s : String)
  | hword (n : Nat)
  | hbyte (n : Nat)
  | hint32 (n : Int)
deriving DecidableEq

/-- Two's-complement 64-bit image of an `i64`, as written by
`write_i64`. -/
def i64bits (i : Int) : Nat := (i % (2 ^ 64)).toNat

/-- Stand-in for `f64::to_bits`.  The real bit pattern is a detail of the
floating-point format (out of scope); the model only relies on the map
being injective on float values, which this pairing encoding is. -/
def floatBits (q : ℚ) : Nat :=
  2 ^ 64 + Nat.pair q.num.natAbs (Nat.pair (if q.num < 0 then 1 else 0) q.den)

/-- Word written for a number, following the branch order of the source:
floats hash their bit pattern, `PosInt` hashes the `u64`, otherwise the
`i64` is hashed. -/
def JNum.hashWord : JNum → Nat
  | .float q => floatBits q
  | .uint n => n
  | .int i => i64bits i

mutual

/-- Token stream written by `ValueWrapper::hash`: arrays recurse in
order, objects write `key.hash(state)` then the child stream for every
entry in iteration order, leaves write one primitive token. -/
def hashStream : JValue → List HTok
  | .arr xs => hashStreamList xs
  | .obj m => hashStreamObj m
  | .str s => [.hstr s]
  | .num nn => [.hword nn.hashWord]
  | .bool b => [.hbyte (if b then 1 else 0)]
  | .null => [.hint32 0]

/-- Stream of an array: concatenation of element streams. -/
def hashStreamList : List JValue → List HTok
  | [] => []
  | x :: xs => hashStream x ++ hashStreamList xs

/-- Stream of an object: per entry, the key token followed by the value
stream, in iteration order. -/
def hashStreamObj : List (String × JValue) → List HTok
  | [] => []
  | (k, v) :: rest => .hstr k :: (hashStream v ++ hashStreamObj rest)

end

/-! ## Error and result model -/

/-- Mirrors `ValidationError`: message plus the two path traces, which
are `Vec<String>` accumulated by `push` (append at the end) as the error
propagates outward; the `Debug` rendering reverses them. -/
structure ValidationError where
  msg : String
  instance_path : List String
  schema_path : List String
deriving DecidableEq

/-- Mirrors `ValidationError::new`: the given message and empty paths. -/
def ValidationError.new (msg : String) : ValidationError :=
  { msg := msg, instance_path := [], schema_path := [] }

/-- Path rendering of the `Debug` impl: reverse, then join with `/`. -/
def renderPath (p : List String) : String := String.intercalate "/" p.reverse

/-- Outcome of running a validator.  `ok`/`err` mirror
`Result<(), ValidationError>`; `crashed` models a Rust panic (`unwrap`,
`expect`, remainder by zero), which unwinds through every caller;
`outOfFuel` marks exhaustion of the recursion fuel of the embedding and
corresponds to no behaviour of the code. -/
inductive RResult where
  | ok
  | err (e : ValidationError)
  | crashed (msg : String)
  | outOfFuel
deriving DecidableEq

/-- Sequencing of the `?` operator: `ok` continues, anything else
(error, panic, fuel exhaustion) propagates. -/
def RResult.andThen (r : RResult) (k : Unit → RResult) : RResult :=
  match r with
  | .ok => k ()
  | r => r

/-- Panic message used for `Option::unwrap` / `Result::unwrap`. -/
def unwrapMsg : String := "unwrap failed"

/-- Panic message for integer remainder by zero. -/
def remZeroMsg : String := "remainder by zero"

/-! ## Regex capability

The regular-expression engine is an external collaborator (spec section
6): the core only needs `compile`, which can fail on a malformed pattern,
and `matches`.  The model uses a minimal concrete compile check (balanced
parentheses, so the pattern `"("` is malformed exactly as in the real
engine) and literal-substring matching; no claim depends on richer regex
semantics. -/

/-- Modelled from the spec: the compile check of the external regex
capability.  A pattern compiles when its parentheses are balanced. -/
def parenScan : List Char → Nat → Bool
  | [], 0 => true
  | [], _ + 1 => false
  | c :: rest, d =>
      if c = '(' then parenScan rest (d + 1)
      else if c = ')' then
        match d with
        | 0 => false
        | d' + 1 => parenScan rest d'
      else parenScan rest d

/-- Modelled from the spec: pattern validity for the external regex
capability. -/
def regex_ok (p : String) : Bool := parenScan p.data 0

/-- Prefix test on character lists. -/
def charsLeadMatch : List Char → List Char → Bool
  | [], _ => true
  | _ :: _, [] => false
  | a :: as, b :: bs => a == b && charsLeadMatch as bs

/-- Substring search on character lists. -/
def charsContain (pat : List Char) : List Char → Bool
  | [] => charsLeadMatch pat []
  | s@(_ :: rest) => charsLeadMatch pat s || charsContain pat rest

/-- Modelled from the spec: unanchored match of the external regex
capability, taken as literal substring search. -/
def regex_is_match (pat s : String) : Bool := charsContain pat.data s.data

/-- Mirrors `get_regex`: compile the pattern, turning a failure into a
`ValidationError` naming the regex failure (the `Syntax(msg)` branch). -/
def get_regex (p : String) : Except ValidationError String :=
  if regex_ok p then .ok p
  else .error (ValidationError.new ("regex syntax error: " ++ p))

/-! ## Keyword rules

Every rule has the uniform `Validator` signature of the source:
`(instance, keyword value, enclosing schema object)`, here additionally
parameterized by `rv`, the recursive entry point (`run_validators` at the
next fuel level), through which `descend` / `is_valid` recursion flows. -/

/-- Signature of a keyword rule, with the recursion parameter first. -/
def JValidator : Type :=
  (JValue → JValue → RResult) → JValue → JValue → List (String × JValue) → RResult

/-- Mirrors `descend`: run the subschema, and on failure push the
instance key and schema key (each only when provided) before
re-raising. -/
def descendF (rv : JValue → JValue → RResult) (inst sch : JValue)
    (instance_key schema_key : Option String) : RResult :=
  match rv inst sch with
  | .err e =>
      .err { e with
        instance_path :=
          match instance_key with
          | some k => e.instance_path ++ [k]
          | none => e.instance_path,
        schema_path :=
          match schema_key with
          | some k => e.schema_path ++ [k]
          | none => e.schema_path }
  | r => r

/-- Mirrors the `is_valid` boolean check as used inside rules: an
error is `false`, success is `true`, and a panic (or fuel exhaustion)
propagates out of the whole evaluation. -/
def check_valid (rv : JValue → JValue → RResult) (inst sch : JValue) :
    Except RResult Bool :=
  match rv inst sch with
  | .ok => .ok true
  | .err _ => .ok false
  | r => .error r

/-- Mirrors `bool_to_object_schema`: `true` becomes the empty accept-all
schema, `false` becomes the always-failing schema `{"not": {}}`, every
other value passes through. -/
def bool_to_object_schema : JValue → JValue
  | .bool b => if b then .obj [] else .obj [("not", .obj [])]
  | s => s

/-- Mirrors `iter_or_once`: an array yields its elements, anything else
yields itself once. -/
def iter_or_once : JValue → List JValue
  | .arr a => a
  | v => [v]

/-- Mirrors `validate_const`: structural inequality fails. -/
def validate_const : JValidator := fun _rv inst sch _parent =>
  if !(values_eq inst sch) then .err (ValidationError.new "Invalid const")
  else .ok

/-- Mirrors `validate_enum`: some element of the schema array must equal
the instance. -/
def validate_enum : JValidator := fun _rv inst sch _parent =>
  match sch with
  | .arr enums =>
      if !(enums.any fun val => values_eq val inst) then
        .err (ValidationError.new "enum")
      else .ok
  | _ => .ok

/-- Mirrors `validate_single_type`: dispatch on the type name, unknown
names always match. -/
def validate_single_type (inst sch : JValue) : RResult :=
  match sch with
  | .str typename =>
      if typename == "array" then
        match inst with
        | .arr _ => .ok
        | _ => .err (ValidationError.new "array")
      else if typename == "object" then
        match inst with
        | .obj _ => .ok
        | _ => .err (ValidationError.new "object")
      else if typename == "null" then
        match inst with
        | .null => .ok
        | _ => .err (ValidationError.new "null")
      else if typename == "number" then
        match inst with
        | .num _ => .ok
        | _ => .err (ValidationError.new "number")
      else if typename == "string" then
        match inst with
        | .str _ => .ok
        | _ => .err (ValidationError.new "string")
      else if typename == "integer" then
        match inst with
        | .num nn =>
            if nn.is_i64 || nn.is_u64 ||
                (nn.is_f64 && decide ((truncQ nn.as_f64 : ℚ) = nn.as_f64)) then
              .ok
            else .err (ValidationError.new "integer")
        | _ => .err (ValidationError.new "integer")
      else if typename == "boolean" then
        match inst with
        | .bool _ => .ok
        | _ => .err (ValidationError.new "boolean")
      else .ok
  | _ => .ok

/-- Mirrors `validate_type`: the instance must match at least one of the
named types (a single name acts as a one-element list). -/
def validate_type : JValidator := fun _rv inst sch _parent =>
  if !((iter_or_once sch).any fun x => validate_single_type inst x == .ok) then
    .err (ValidationError.new "type")
  else .ok

/-- Mirrors `validate_exclusiveMinimum`. -/
def validate_exclusiveMinimum : JValidator := fun _rv inst sch _parent =>
  match inst, sch with
  | .num i, .num s =>
      if i.as_f64 ≤ s.as_f64 then .err (ValidationError.new "exclusiveMinimum")
      else .ok
  | _, _ => .ok

/-- Mirrors `validate_exclusiveMaximum`. -/
def validate_exclusiveMaximum : JValidator := fun _rv inst sch _parent =>
  match inst, sch with
  | .num i, .num s =>
      if s.as_f64 ≤ i.as_f64 then .err (ValidationError.new "exclusiveMaximum")
      else .ok
  | _, _ => .ok

/-- Mirrors `validate_minimum`. -/
def validate_minimum : JValidator := fun _rv inst sch _parent =>
  match inst, sch with
  | .num i, .num s =>
      if i.as_f64 < s.as_f64 then .err (ValidationError.new "minimum")
      else .ok
  | _, _ => .ok

/-- Mirrors `validate_maximum`. -/
def validate_maximum : JValidator := fun _rv inst sch _parent =>
  match inst, sch with
  | .num i, .num s =>
      if s.as_f64 < i.as_f64 then .err (ValidationError.new "maximum")
      else .ok
  | _, _ => .ok

/-- Mirrors `validate_multipleOf`, including its partiality: the float
branch divides the two `as_f64` values and requires a trunc-stable
quotient; the `u64` branch unwraps `instance.as_u64()` (a panic when the
instance is not `u64`-encoded) and takes an integer remainder (a panic
when the divisor is zero); the remaining branch does the same through
`as_i64`.  Remainder on integers uses truncated division in Rust; only
its zero test is consumed, for which Lean's `%` agrees. -/
def validate_multipleOf : JValidator := fun _rv inst sch _parent =>
  match inst, sch with
  | .num i, .num s =>
      match s with
      | .float sq =>
          let quotient := i.as_f64 / sq
          if (truncQ quotient : ℚ) ≠ quotient then
            .err (ValidationError.new "not multipleOf")
          else .ok
      | .uint b =>
          match i.as_u64 with
          | none => .crashed unwrapMsg
          | some a =>
              if b = 0 then .crashed remZeroMsg
              else if a % b ≠ 0 then .err (ValidationError.new "not multipleOf")
              else .ok
      | .int b =>
          match i.as_i64 with
          | none => .crashed unwrapMsg
          | some a =>
              if b = 0 then .crashed remZeroMsg
              else if a % b ≠ 0 then .err (ValidationError.new "not multipleOf")
              else .ok
  | _, _ => .ok

/-- Mirrors `validate_minItems`, unwrapping `schema.as_u64()`. -/
def validate_minItems : JValidator := fun _rv inst sch _parent =>
  match inst, sch with
  | .arr l, .num nn =>
      match nn.as_u64 with
      | none => .crashed unwrapMsg
      | some bound =>
          if l.length < bound then .err (ValidationError.new "minItems")
          else .ok
  | _, _ => .ok

/-- Mirrors `validate_maxItems`; its failure message is the literal
string `"minItems"` in the source. -/
def validate_maxItems : JValidator := fun _rv inst sch _parent =>
  match inst, sch with
  | .arr l, .num nn =>
      match nn.as_u64 with
      | none => .crashed unwrapMsg
      | some bound =>
          if bound < l.length then .err (ValidationError.new "minItems")
          else .ok
  | _, _ => .ok

/-- Mirrors `validate_minLength`: Unicode scalar count of the string. -/
def validate_minLength : JValidator := fun _rv inst sch _parent =>
  match inst, sch with
  | .str s, .num nn =>
      match nn.as_u64 with
      | none => .crashed unwrapMsg
      | some bound =>
          if s.data.length < bound then .err (ValidationError.new "minLength")
          else .ok
  | _, _ => .ok

/-- Mirrors `validate_maxLength`. -/
def validate_maxLength : JValidator := fun _rv inst sch _parent =>
  match inst, sch with
  | .str s, .num nn =>
      match nn.as_u64 with
      | none => .crashed unwrapMsg
      | some bound =>
          if bound < s.data.length then .err (ValidationError.new "maxLength")
          else .ok
  | _, _ => .ok

/-- Mirrors `validate_minProperties`. -/
def validate_minProperties : JValidator := fun _rv inst sch _parent =>
  match inst, sch with
  | .obj m, .num nn =>
      match nn.as_u64 with
      | none => .crashed unwrapMsg
      | some bound =>
          if m.length < bound then .err (ValidationError.new "minProperties")
          else .ok
  | _, _ => .ok

/-- Mirrors `validate_maxProperties`. -/
def validate_maxProperties : JValidator := fun _rv inst sch _parent =>
  match inst, sch with
  | .obj m, .num nn =>
      match nn.as_u64 with
      | none => .crashed unwrapMsg
      | some bound =>
          if bound < m.length then .err (ValidationError.new "maxProperties")
          else .ok
  | _, _ => .ok

/-- Duplicate detection of `has_unique_elements`: `HashSet::insert`
reports an element as already present when an earlier element has both
the same hash (same token stream) and is equal. -/
def huLoop : List JValue → List JValue → Bool
  | [], _ => true
  | x :: rest, seen =>
      if seen.any fun y => hashStream y == hashStream x && values_eq y x then
        false
      else huLoop rest (x :: seen)

/-- Mirrors `has_unique_elements` over `ValueWrapper`. -/
def has_unique_elements (l : List JValue) : Bool := huLoop l []

/-- Mirrors `validate_uniqueItems`. -/
def validate_uniqueItems : JValidator := fun _rv inst sch _parent =>
  match inst, sch with
  | .arr l, .bool b =>
      if b && !(has_unique_elements l) then
        .err (ValidationError.new "uniqueItems")
      else .ok
  | _, _ => .ok

/-- ASCII single-quote character, used in the `required` message. -/
def sq : String := String.singleton (Char.ofNat 39)

/-- Loop of `validate_required` over the named keys. -/
def reqLoop (instO : List (String × JValue)) : List JValue → RResult
  | [] => .ok
  | .str key :: rest =>
      if !(lookupJ key instO).isSome then
        .err (ValidationError.new
          ("required property " ++ sq ++ key ++ sq ++ " missing"))
      else reqLoop instO rest
  | _ :: rest => reqLoop instO rest

/-- Mirrors `validate_required`. -/
def validate_required : JValidator := fun _rv inst sch _parent =>
  match inst, sch with
  | .obj instO, .arr names => reqLoop instO names
  | _, _ => .ok

/-- Inner loop of `validate_patternProperties`: every instance entry
whose key matches the compiled pattern is descended into, with the
instance key and the pattern string as path segments. -/
def ppInner (rv : JValue → JValue → RResult) (pattern : String)
    (subschema : JValue) : List (String × JValue) → RResult
  | [] => .ok
  | (k, v) :: rest =>
      if regex_is_match pattern k then
        (descendF rv v subschema (some k) (some pattern)).andThen fun _ =>
          ppInner rv pattern subschema rest
      else ppInner rv pattern subschema rest

/-- Outer loop of `validate_patternProperties`: compile each pattern
(`get_regex(pattern)?`, so a malformed pattern returns its error), then
scan the instance entries. -/
def ppLoop (rv : JValue → JValue → RResult)
    (instO : List (String × JValue)) : List (String × JValue) → RResult
  | [] => .ok
  | (pattern, subschema) :: rest =>
      match get_regex pattern with
      | .error e => .err e
      | .ok re =>
          (ppInner rv re subschema instO).andThen fun _ =>
            ppLoop rv instO rest

/-- Mirrors `validate_patternProperties`. -/
def validate_patternProperties : JValidator := fun rv inst sch _parent =>
  match inst, sch with
  | .obj instO, .obj schO => ppLoop rv instO schO
  | _, _ => .ok

/-- Loop of `validate_propertyNames`: each instance key, wrapped as a
string value, is descended into with only the instance key provided. -/
def pnLoop (rv : JValue → JValue → RResult) (sch : JValue) :
    List (String × JValue) → RResult
  | [] => .ok
  | (property, _) :: rest =>
      (descendF rv (.str property) sch (some property) none).andThen fun _ =>
        pnLoop rv sch rest

/-- Mirrors `validate_propertyNames`. -/
def validate_propertyNames : JValidator := fun rv inst sch _parent =>
  match inst with
  | .obj instO => pnLoop rv sch instO
  | _ => .ok

/-- Mirrors `find_additional_properties`: the instance keys covered
neither by `properties` (exact name) nor by `patternProperties` (regex
match) of the enclosing schema.  The source compiles every pattern with
`get_regex(k).unwrap()`, so a malformed pattern panics: that outcome is
`none`. -/
def find_additional_properties (instO parentO : List (String × JValue)) :
    Option (List String) :=
  let properties := (lookupJ "properties" parentO).getD (.obj [])
  let pattern_properties := (lookupJ "patternProperties" parentO).getD (.obj [])
  match properties, pattern_properties with
  | .obj props, .obj patProps =>
      if patProps.all fun kv => regex_ok kv.1 then
        some ((instO.map Prod.fst).filter fun property =>
          !(lookupJ property props).isSome &&
            !(patProps.any fun kv => regex_is_match kv.1 property))
      else none
  | _, _ => some (instO.map Prod.fst)

/-- Loop of the object-schema branch of `validate_additionalProperties`:
each uncovered key's value is descended into against the keyword value,
with no schema key.  The `expect("Property gone missing.")` of the
source is modelled by the crash branch. -/
def apLoop (rv : JValue → JValue → RResult)
    (instO : List (String × JValue)) (sch : JValue) : List String → RResult
  | [] => .ok
  | extra :: rest =>
      match lookupJ extra instO with
      | none => .crashed "Property gone missing."
      | some v =>
          (descendF rv v sch (some extra) none).andThen fun _ =>
            apLoop rv instO sch rest

/-- Mirrors `validate_additionalProperties`. -/
def validate_additionalProperties : JValidator := fun rv inst sch parentO =>
  match inst with
  | .obj instO =>
      match find_additional_properties instO parentO with
      | none => .crashed unwrapMsg
      | some extras =>
          match sch with
          | .obj _ => apLoop rv instO sch extras
          | .bool b =>
              if !b && !extras.isEmpty then
                .err (ValidationError.new "Additional properties are not allowed")
              else .ok
          | _ => .ok
  | _ => .ok

/-- Loop of the single-schema branch of `validate_items`: every element
is descended into with its index as the instance key. -/
def itemsSingleLoop (rv : JValue → JValue → RResult) (sch : JValue) :
    List JValue → Nat → RResult
  | [], _ => .ok
  | item :: rest, idx =>
      (descendF rv item sch (some (toString idx)) none).andThen fun _ =>
        itemsSingleLoop rv sch rest (idx + 1)

/-- Loop of the tuple branch of `validate_items`: elements zipped with
subschemas positionally, index as both path keys. -/
def itemsTupleLoop (rv : JValue → JValue → RResult) :
    List (JValue × JValue) → Nat → RResult
  | [], _ => .ok
  | (item, sub) :: rest, idx =>
      (descendF rv item sub (some (toString idx)) (some (toString idx))).andThen
        fun _ => itemsTupleLoop rv rest (idx + 1)

/-- Mirrors `validate_items`, boolean-normalizing the keyword value
first. -/
def validate_items : JValidator := fun rv inst sch _parent =>
  match inst with
  | .arr instA =>
      match bool_to_object_schema sch with
      | .obj m => itemsSingleLoop rv (.obj m) instA 0
      | .arr itemsA => itemsTupleLoop rv (instA.zip itemsA) 0
      | _ => .ok
  | _ => .ok

/-- Loop of the object-schema branch of `validate_additionalItems` over
the elements past the tuple prefix, carrying the absolute index. -/
def aiLoop (rv : JValue → JValue → RResult) (sch : JValue) :
    List JValue → Nat → RResult
  | [], _ => .ok
  | item :: rest, idx =>
      (descendF rv item sch (some (toString idx)) none).andThen fun _ =>
        aiLoop rv sch rest (idx + 1)

/-- Mirrors `validate_additionalItems`: a no-op when the enclosing
schema has no `items` key or its `items` value is an object; otherwise
`len_items` is the length of the `items` array (`0` for any non-array
`items`), an object keyword value descends into the elements from
`len_items` on, and a `false` keyword value fails when the sequence is
longer than `len_items`. -/
def validate_additionalItems : JValidator := fun rv inst sch parentO =>
  match lookupJ "items" parentO with
  | none => .ok
  | some itemsV =>
      match itemsV with
      | .obj _ => .ok
      | _ =>
          match inst with
          | .arr instA =>
              let len_items := match itemsV with
                | .arr a => a.length
                | _ => 0
              match sch with
              | .obj _ => aiLoop rv sch (instA.drop len_items) len_items
              | .bool b =>
                  if !b && len_items < instA.length then
                    .err (ValidationError.new "Additional items are not allowed")
                  else .ok
              | _ => .ok
          | _ => .ok

/-- Loop of `validate_contains` over the elements, with the panic /
fuel channel of `check_valid` propagating. -/
def anyValidLoop (rv : JValue → JValue → RResult) (sch : JValue) :
    List JValue → Except RResult Bool
  | [] => .ok false
  | x :: rest =>
      match check_valid rv x sch with
      | .ok true => .ok true
      | .ok false => anyValidLoop rv sch rest
      | .error r => .error r

/-- Mirrors `validate_contains`: at least one element must satisfy the
subschema, via the boolean `is_valid` check. -/
def validate_contains : JValidator := fun rv inst sch _parent =>
  match inst with
  | .arr instA =>
      match anyValidLoop rv sch instA with
      | .ok true => .ok
      | .ok false =>
          .err (ValidationError.new "Nothing is valid under the given schema")
      | .error r => r
  | _ => .ok

/-- String-dependency walk of `validate_dependencies`: every named key
must be present. -/
def depStrings (instO : List (String × JValue)) : List JValue → RResult
  | [] => .ok
  | .str key :: rest =>
      if !(lookupJ key instO).isSome then .err (ValidationError.new "dependency")
      else depStrings instO rest
  | _ :: rest => depStrings instO rest

/-- Loop of `validate_dependencies` over the declared dependencies: an
object-valued (boolean-normalized) dependency descends the whole
instance against it unconditionally; otherwise the string form is
checked. -/
def depLoop (rv : JValue → JValue → RResult) (inst : JValue)
    (instO : List (String × JValue)) : List (String × JValue) → RResult
  | [] => .ok
  | (property, dependency) :: rest =>
      match bool_to_object_schema dependency with
      | .obj m =>
          (descendF rv inst (.obj m) none (some property)).andThen fun _ =>
            depLoop rv inst instO rest
      | dep =>
          (depStrings instO (iter_or_once dep)).andThen fun _ =>
            depLoop rv inst instO rest

/-- Mirrors `validate_dependencies`. -/
def validate_dependencies : JValidator := fun rv inst sch _parent =>
  match inst, sch with
  | .obj instO, .obj schO => depLoop rv (.obj instO) instO schO
  | _, _ => .ok

/-- Loop of `validate_properties`: each schema property present in the
instance is descended into with the property name as both path keys. -/
def propLoop (rv : JValue → JValue → RResult)
    (instO : List (String × JValue)) : List (String × JValue) → RResult
  | [] => .ok
  | (property, subschema) :: rest =>
      match lookupJ property instO with
      | some v =>
          (descendF rv v subschema (some property) (some property)).andThen
            fun _ => propLoop rv instO rest
      | none => propLoop rv instO rest

/-- Mirrors `validate_properties`. -/
def validate_properties : JValidator := fun rv inst sch _parent =>
  match inst, sch with
  | .obj instO, .obj schO => propLoop rv instO schO
  | _, _ => .ok

/-- Loop of `validate_allOf`: every boolean-normalized subschema must
pass, the index becoming a schema path segment. -/
def allOfLoop (rv : JValue → JValue → RResult) (inst : JValue) :
    List JValue → Nat → RResult
  | [], _ => .ok
  | sub :: rest, idx =>
      (descendF rv inst (bool_to_object_schema sub) none
          (some (toString idx))).andThen fun _ =>
        allOfLoop rv inst rest (idx + 1)

/-- Mirrors `validate_allOf`. -/
def validate_allOf : JValidator := fun rv inst sch _parent =>
  match sch with
  | .arr subs => allOfLoop rv inst subs 0
  | _ => .ok

/-- Mirrors `validate_anyOf` exactly as written: the loop body returns
on its first iteration — success if the first subschema passes,
otherwise the generic `anyOf` error; an empty array falls through to
success. -/
def validate_anyOf : JValidator := fun rv inst sch _parent =>
  match sch with
  | .arr subs =>
      match subs with
      | [] => .ok
      | sub :: _ =>
          match descendF rv inst (bool_to_object_schema sub) none
              (some (toString (0 : Nat))) with
          | .ok => .ok
          | .err _ => .err (ValidationError.new "anyOf")
          | r => r
  | _ => .ok

/-- Mirrors `validate_oneOf`: the body is a stub that always
succeeds. -/
def validate_oneOf : JValidator := fun _rv _inst _sch _parent => .ok

/-- Mirrors `validate_not`: invert the outcome of `run_validators` on
the inner schema, discarding the inner error. -/
def validate_not : JValidator := fun rv inst sch _parent =>
  match rv inst sch with
  | .ok => .err (ValidationError.new "not")
  | .err _ => .ok
  | r => r

/-- Mirrors `get_validator`: the fixed keyword registry. -/
def get_validator (key : String) : Option JValidator :=
  if key == "patternProperties" then some validate_patternProperties
  else if key == "propertyNames" then some validate_propertyNames
  else if key == "additionalProperties" then some validate_additionalProperties
  else if key == "items" then some validate_items
  else if key == "additionalItems" then some validate_additionalItems
  else if key == "const" then some validate_const
  else if key == "contains" then some validate_contains
  else if key == "exclusiveMinimum" then some validate_exclusiveMinimum
  else if key == "exclusiveMaximum" then some validate_exclusiveMaximum
  else if key == "minimum" then some validate_minimum
  else if key == "maximum" then some validate_maximum
  else if key == "multipleOf" then some validate_multipleOf
  else if key == "minItems" then some validate_minItems
  else if key == "maxItems" then some validate_maxItems
  else if key == "uniqueItems" then some validate_uniqueItems
  else if key == "minLength" then some validate_minLength
  else if key == "maxLength" then some validate_maxLength
  else if key == "dependencies" then some validate_dependencies
  else if key == "enum" then some validate_enum
  else if key == "type" then some validate_type
  else if key == "properties" then some validate_properties
  else if key == "required" then some validate_required
  else if key == "minProperties" then some validate_minProperties
  else if key == "maxProperties" then some validate_maxProperties
  else if key == "allOf" then some validate_allOf
  else if key == "anyOf" then some validate_anyOf
  else if key == "oneOf" then some validate_oneOf
  else if key == "not" then some validate_not
  else none

/-- Keyword loop of `run_validators` over the schema object in its own
key order: registered keywords run in turn; the first failure gets the
keyword name pushed onto its schema path and propagates immediately. -/
def runKeywords (rv : JValue → JValue → RResult) (inst : JValue) :
    List (String × JValue) → List (String × JValue) → RResult
  | [], _ => .ok
  | (k, v) :: rest, schema_object =>
      match get_validator k with
      | none => runKeywords rv inst rest schema_object
      | some validator =>
          match validator rv inst v schema_object with
          | .ok => runKeywords rv inst rest schema_object
          | .err e => .err { e with schema_path := e.schema_path ++ [k] }
          | r => r

/-- One step of `run_validators`: boolean schemas decide immediately, a
schema object containing `$ref` short-circuits to success, any other
object runs its keywords, and every other shape is an invalid schema. -/
def run_step (rv : JValue → JValue → RResult) (inst sch : JValue) : RResult :=
  match sch with
  | .bool b =>
      if b then .ok else .err (ValidationError.new "False schema always fails")
  | .obj schema_object =>
      if (lookupJ "$ref" schema_object).isSome then .ok
      else runKeywords rv inst schema_object schema_object
  | _ => .err (ValidationError.new "Invalid schema")

/-- Fuel-indexed `run_validators`: each nesting level of the evaluation
consumes one unit of fuel. -/
def run_validators : Nat → JValue → JValue → RResult
  | 0, _, _ => .outOfFuel
  | n + 1, inst, sch => run_step (run_validators n) inst sch

/-- Mirrors `descend` at a given fuel level. -/
def descend (n : Nat) (inst sch : JValue)
    (instance_key schema_key : Option String) : RResult :=
  descendF (run_validators n) inst sch instance_key schema_key

/-- Mirrors the public `is_valid` at a given fuel level. -/
def is_valid (n : Nat) (inst sch : JValue) : Bool :=
  run_validators n inst sch == .ok

/-! ## Supporting definitions for the claim statements -/

/-- Constructor tag of a value, used to state variant discrimination. -/
def jKind : JValue → Nat
  | .null => 0
  | .bool _ => 1
  | .num _ => 2
  | .str _ => 3
  | .arr _ => 4
  | .obj _ => 5

/-- Well-formedness of a parsed object: its keys are pairwise
distinct. -/
def NodupKeys (m : List (String × JValue)) : Prop := (m.map Prod.fst).Nodup

/-- Shape test for the `items` guard of `validate_additionalItems`. -/
def isObjJ : JValue → Bool
  | .obj _ => true
  | _ => false

/-- The `len_items` computation of `validate_additionalItems`: the
length of an array-valued `items`, and `0` otherwise. -/
def itemsLen : JValue → Nat
  | .arr a => a.length
  | _ => 0

/-- Instance of the error-path example: the object `{"a": 1}`. -/
def c7Inst : JValue := .obj [("a", .num (.uint 1))]

/-- Schema of the error-path example:
`{"properties": {"a": {"minimum": 5}}}`. -/
def c7Schema : JValue :=
  .obj [("properties", .obj [("a", .obj [("minimum", .num (.uint 5))])])]

/-- Error produced by the error-path example, paths in accumulation
order. -/
def c7Err : ValidationError :=
  { msg := "minimum", instance_path := ["a"],
    schema_path := ["minimum", "a", "properties"] }

/-- Tuple-items example schema:
`{"items": [{"type": "number"}], "additionalItems": false}`. -/
def c8TupleSchema : JValue :=
  .obj [("items", .arr [.obj [("type", .str "number")]]),
        ("additionalItems", .bool false)]

/-! ## Supporting lemmas -/

/-- The outcome of `descend` is success exactly when the recursive run
succeeds; the path keys only decorate failures. -/
theorem descendF_ok_iff (rv : JValue → JValue → RResult) (inst sch : JValue)
    (ik sk : Option String) :
    descendF rv inst sch ik sk = .ok ↔ rv inst sch = .ok := by
  unfold descendF
  cases rv inst sch <;> simp

/-- The `additionalItems` element loop succeeds exactly when every
listed element passes the recursive run. -/
theorem aiLoop_ok_iff (rv : JValue → JValue → RResult) (sch : JValue)
    (l : List JValue) (idx : Nat) :
    aiLoop rv sch l idx = .ok ↔ ∀ x ∈ l, rv x sch = .ok := by
  induction l generalizing idx with
  | nil => simp [aiLoop]
  | cons item rest ih =>
      simp only [aiLoop]
      rcases hd : descendF rv item sch (some (toString idx)) none with _ | e | m | _
      · have hr : rv item sch = .ok := (descendF_ok_iff rv item sch _ _).mp hd
        simp [RResult.andThen, ih, hr, List.forall_mem_cons]
      · have hr : rv item sch ≠ .ok := by
          intro hc
          rw [(descendF_ok_iff rv item sch (some (toString idx)) none).mpr hc] at hd
          cases hd
        simp [RResult.andThen, List.forall_mem_cons, hr]
      · have hr : rv item sch ≠ .ok := by
          intro hc
          rw [(descendF_ok_iff rv item sch (some (toString idx)) none).mpr hc] at hd
          cases hd
        simp [RResult.andThen, List.forall_mem_cons, hr]
      · have hr : rv item sch ≠ .ok := by
          intro hc
          rw [(descendF_ok_iff rv item sch (some (toString idx)) none).mpr hc] at hd
          cases hd
        simp [RResult.andThen, List.forall_mem_cons, hr]

/-- Lookup success means membership. -/
theorem lookupJ_eq_some_mem {k : String} {m : List (String × JValue)}
    {v : JValue} (h : lookupJ k m = some v) : (k, v) ∈ m := by
  induction m with
  | nil => simp [lookupJ] at h
  | cons p rest ih =>
      obtain ⟨k', v'⟩ := p
      by_cases hk : k' = k
      · subst hk
        simp [lookupJ] at h
        subst h
        exact List.mem_cons_self _ _
      · simp only [lookupJ] at h
        rw [if_neg (by simpa using hk)] at h
        exact List.mem_cons_of_mem _ (ih h)

/-- Lookup succeeds exactly on the keys of the map. -/
theorem lookupJ_isSome_iff {k : String} {m : List (String × JValue)} :
    (lookupJ k m).isSome ↔ k ∈ m.map Prod.fst := by
  induction m with
  | nil => simp [lookupJ]
  | cons p rest ih =>
      obtain ⟨k', v'⟩ := p
      by_cases hk : k' = k
      · subst hk
        simp [lookupJ]
      · simp only [lookupJ, List.map_cons]
        rw [if_neg (by simpa using hk)]
        simp [ih, List.mem_cons, Ne.symm hk]

/-- With pairwise-distinct keys, membership determines the lookup. -/
theorem lookupJ_of_mem {k : String} {v : JValue} {m : List (String × JValue)}
    (hn : NodupKeys m) (hm : (k, v) ∈ m) : lookupJ k m = some v := by
  induction m with
  | nil => cases hm
  | cons p rest ih =>
      obtain ⟨k', v'⟩ := p
      simp only [NodupKeys, List.map_cons, List.nodup_cons] at hn
      rcases List.mem_cons.mp hm with h | h
      · simp only [Prod.mk.injEq] at h
        obtain ⟨rfl, rfl⟩ := h
        simp [lookupJ]
      · have hne : k' ≠ k := by
          rintro rfl
          exact hn.1 (List.mem_map_of_mem Prod.fst h)
      -- distinct head key, so lookup continues in the tail
        simp only [lookupJ]
        rw [if_neg (by simpa using hne)]
        exact ih hn.2 h

/-- Two duplicate-free lists with the same members have the same
length. -/
theorem nodup_len_eq {l1 l2 : List String} (h1 : l1.Nodup) (h2 : l2.Nodup)
    (h : ∀ x, x ∈ l1 ↔ x ∈ l2) : l1.length = l2.length := by
  have hf : l1.toFinset = l2.toFinset := by
    ext x
    simp [h x]
  calc l1.length = l1.toFinset.card := (List.toFinset_card_of_nodup h1).symm
    _ = l2.toFinset.card := by rw [hf]
    _ = l2.length := List.toFinset_card_of_nodup h2

/-- A duplicate-free sublist of equal length exhausts the superlist. -/
theorem mem_of_subset_len {l1 l2 : List String} (h1 : l1.Nodup)
    (h2 : l2.Nodup) (hsub : ∀ x ∈ l1, x ∈ l2)
    (hlen : l1.length = l2.length) : ∀ x ∈ l2, x ∈ l1 := by
  have hsubF : l1.toFinset ⊆ l2.toFinset := by
    intro x hx
    exact List.mem_toFinset.mpr (hsub x (List.mem_toFinset.mp hx))
  have hcard : l2.toFinset.card ≤ l1.toFinset.card := by
    rw [List.toFinset_card_of_nodup h1, List.toFinset_card_of_nodup h2, hlen]
  have heq := Finset.eq_of_subset_of_card_le hsubF hcard
  intro x hx
  exact List.mem_toFinset.mp (heq ▸ List.mem_toFinset.mpr hx)

/-- Characterization of the map-equality loop. -/
theorem objSub_iff {m1 m2 : List (String × JValue)} :
    objSub m1 m2 = true ↔
      ∀ p ∈ m1, ∃ v2, lookupJ p.1 m2 = some v2 ∧ values_eq p.2 v2 = true := by
  induction m1 with
  | nil => simp [objSub]
  | cons p rest ih =>
      obtain ⟨k, v⟩ := p
      simp only [objSub, Bool.and_eq_true, ih, List.forall_mem_cons]
      constructor
      · rintro ⟨h1, h2⟩
        refine ⟨?_, h2⟩
        cases hl : lookupJ k m2 with
        | none => rw [hl] at h1; cases h1
        | some v2 =>
            rw [hl] at h1
            exact ⟨v2, rfl, h1⟩
      · rintro ⟨⟨v2, hl, hv⟩, h2⟩
        refine ⟨?_, h2⟩
        rw [hl]
        exact hv

/-- Equal values have equal constructor tags. -/
theorem values_eq_kind {a b : JValue} (h : values_eq a b = true) :
    jKind a = jKind b := by
  cases a <;> cases b <;> first
    | rfl
    | (simp [values_eq] at h)

/-- Pointwise characterization of array equality. -/
theorem listEq_iff {xs ys : List JValue} :
    listEq xs ys = true ↔
      List.Forall₂ (fun a b => values_eq a b = true) xs ys := by
  induction xs generalizing ys with
  | nil => cases ys <;> simp [listEq]
  | cons x xs ih =>
      cases ys with
      | nil => simp [listEq]
      | cons y ys => simp [listEq, Bool.and_eq_true, ih]

/-- Characterization of object equality: with duplicate-free keys it is
exactly key-set equality plus per-key value equality, independent of
entry order. -/
theorem values_eq_obj_iff {m1 m2 : List (String × JValue)}
    (h1 : NodupKeys m1) (h2 : NodupKeys m2) :
    values_eq (.obj m1) (.obj m2) = true ↔
      ((∀ k, (lookupJ k m1).isSome ↔ (lookupJ k m2).isSome) ∧
       (∀ k v1 v2, lookupJ k m1 = some v1 → lookupJ k m2 = some v2 →
          values_eq v1 v2 = true)) := by
  simp only [values_eq, Bool.and_eq_true, beq_iff_eq, objSub_iff]
  constructor
  · rintro ⟨hlen, hS⟩
    have hfwd : ∀ k, (lookupJ k m1).isSome → (lookupJ k m2).isSome := by
      intro k hk
      obtain ⟨v, hv⟩ := Option.isSome_iff_exists.mp hk
      obtain ⟨v2, hv2, _⟩ := hS (k, v) (lookupJ_eq_some_mem hv)
      exact Option.isSome_iff_exists.mpr ⟨v2, hv2⟩
    have hlenk : (m1.map Prod.fst).length = (m2.map Prod.fst).length := by
      simpa using hlen
    have hbwd : ∀ k ∈ m2.map Prod.fst, k ∈ m1.map Prod.fst :=
      mem_of_subset_len h1 h2
        (fun k hk => lookupJ_isSome_iff.mp
          (hfwd k (lookupJ_isSome_iff.mpr hk))) hlenk
    refine ⟨fun k => ⟨hfwd k, ?_⟩, ?_⟩
    · intro hk
      exact lookupJ_isSome_iff.mpr
        (hbwd k (lookupJ_isSome_iff.mp hk))
    · intro k v1 v2 hv1 hv2
      obtain ⟨v2', hv2', hq⟩ := hS (k, v1) (lookupJ_eq_some_mem hv1)
      rw [hv2'] at hv2
      cases hv2
      exact hq
  · rintro ⟨hiff, hpt⟩
    constructor
    · have : ∀ x, x ∈ m1.map Prod.fst ↔ x ∈ m2.map Prod.fst := by
        intro x
        rw [← lookupJ_isSome_iff, ← lookupJ_isSome_iff]
        exact hiff x
      have := nodup_len_eq h1 h2 this
      simpa using this
    · rintro ⟨k, v⟩ hm
      have hv1 : lookupJ k m1 = some v := lookupJ_of_mem h1 hm
      have : (lookupJ k m2).isSome := (hiff k).mp (by simp [hv1])
      obtain ⟨v2, hv2⟩ := Option.isSome_iff_exists.mp this
      exact ⟨v2, hv2, hpt k v v2 hv1 hv2⟩

/-! ## Claim theorems -/

/-- Claim C1.  The `anyOf` rule does not try every candidate: on the
instance `1` with schema `{"anyOf": [{"const": 0}, {"const": 1}]}` the
run fails with the generic `anyOf` error even though the second
subschema validates the instance on its own, because the loop body of
`validate_anyOf` returns unconditionally after the first candidate.
This contradicts the claimed any-one-of-all semantics. -/
theorem C1_code_eval :
    run_validators 3 (.num (.uint 1))
        (.obj [("anyOf", .arr [.obj [("const", .num (.uint 0))],
                               .obj [("const", .num (.uint 1))]])]) =
      .err { msg := "anyOf", instance_path := [], schema_path := ["anyOf"] } ∧
    run_validators 2 (.num (.uint 1)) (.obj [("const", .num (.uint 1))]) =
      .ok := by
  decide

/-- Claim C2.  The `oneOf` rule is an unconditional success: on the
instance `1` with schema `{"oneOf": [{"const": 0}, {"const": 2}]}` the
run succeeds even though zero subschemas validate the instance,
contradicting the claimed count-exactly-one semantics. -/
theorem C2_code_eval :
    run_validators 3 (.num (.uint 1))
        (.obj [("oneOf", .arr [.obj [("const", .num (.uint 0))],
                               .obj [("const", .num (.uint 2))]])]) = .ok ∧
    run_validators 2 (.num (.uint 1)) (.obj [("const", .num (.uint 0))]) ≠
      .ok ∧
    run_validators 2 (.num (.uint 1)) (.obj [("const", .num (.uint 2))]) ≠
      .ok := by
  decide

/-- Claim C3.  `run_validators` is not panic-free: a float-encoded
numeric bound reaches `as_u64().unwrap()` in `validate_minItems`
(instance `[]`, schema `{"minItems": 2.5}`), and a zero integer divisor
reaches an integer remainder by zero in `validate_multipleOf` (instance
`4`, schema `{"multipleOf": 0}`); both runs crash instead of returning a
`Result` value. -/
theorem C3_code_eval :
    run_validators 1 (.arr [])
        (.obj [("minItems", .num (.float (5 / 2)))]) = .crashed unwrapMsg ∧
    run_validators 1 (.num (.uint 4))
        (.obj [("multipleOf", .num (.uint 0))]) = .crashed remZeroMsg := by
  decide

/-- Claim C4.  A malformed `patternProperties` pattern is returned as a
`ValidationError` when only `validate_patternProperties` runs, but when
the enclosing schema also contains `additionalProperties`, the
recompilation of the sibling patterns inside
`find_additional_properties` uses `get_regex(k).unwrap()` and the run
crashes instead of returning the error. -/
theorem C4_code_eval :
    run_validators 1 (.obj [])
        (.obj [("patternProperties", .obj [("(", .bool true)])]) =
      .err { msg := "regex syntax error: (", instance_path := [],
             schema_path := ["patternProperties"] } ∧
    run_validators 1 (.obj [])
        (.obj [("additionalProperties", .bool false),
               ("patternProperties", .obj [("(", .bool true)])]) =
      .crashed unwrapMsg := by
  decide

/-- Claim C5, counterexample.  The equality used by `const` is
variant-strict on number encodings: the unsigned-encoded `1` and the
float-encoded `1.0` are unequal, so the instance `1` fails
`{"const": 1.0}` instead of satisfying it. -/
theorem C5_counterexample :
    values_eq (.num (.uint 1)) (.num (.float 1)) = false ∧
    run_validators 1 (.num (.uint 1)) (.obj [("const", .num (.float 1))]) =
      .err { msg := "Invalid const", instance_path := [],
             schema_path := ["const"] } := by
  decide

/-- Claim C5, as amended.  The structural equality used by `const` and
`enum` relates two values exactly when they have the same variant and,
for numbers, the same encoding variant with equal payload (so integer
and float encodings of the same mathematical value are NOT equal);
sequences are equal pointwise in order, and mappings with
duplicate-free keys are equal on key sets and per-key values,
independent of entry order. -/
theorem C5_amended :
    (∀ a b : JValue, values_eq a b = true → jKind a = jKind b) ∧
    (∀ a b : JNum, numEq a b = true ↔
      (match a, b with
       | .uint x, .uint y => x = y
       | .int x, .int y => x = y
       | .float x, .float y => x = y
       | _, _ => False)) ∧
    (∀ xs ys : List JValue, values_eq (.arr xs) (.arr ys) = true ↔
      List.Forall₂ (fun a b => values_eq a b = true) xs ys) ∧
    (∀ m1 m2, NodupKeys m1 → NodupKeys m2 →
      (values_eq (.obj m1) (.obj m2) = true ↔
        ((∀ k, (lookupJ k m1).isSome ↔ (lookupJ k m2).isSome) ∧
         (∀ k v1 v2, lookupJ k m1 = some v1 → lookupJ k m2 = some v2 →
            values_eq v1 v2 = true)))) := by
  refine ⟨fun a b => values_eq_kind, fun a b => ?_, fun xs ys => ?_,
    fun m1 m2 h1 h2 => values_eq_obj_iff h1 h2⟩
  · cases a <;> cases b <;> simp [numEq]
  · simp only [values_eq]
    exact listEq_iff

/-- Claim C5, witness for the amended theorem at a concrete pair of
one-entry mappings. -/
theorem C5_amended_witness :
    values_eq (.obj [("a", .null)]) (.obj [("a", .null)]) = true ↔
      ((∀ k, (lookupJ k [("a", JValue.null)]).isSome ↔
          (lookupJ k [("a", JValue.null)]).isSome) ∧
       (∀ k v1 v2, lookupJ k [("a", JValue.null)] = some v1 →
          lookupJ k [("a", JValue.null)] = some v2 →
            values_eq v1 v2 = true)) :=
  C5_amended.2.2.2 [("a", .null)] [("a", .null)]
    (by simp [NodupKeys]) (by simp [NodupKeys])

/-- Claim C6.  The hash of `ValueWrapper` is not consistent with its
equality on mappings: the maps built from the pairs `a ↦ 1, b ↦ 2` in
the two insertion orders are equal, yet their hash token streams differ,
because `ValueWrapper::hash` writes entries in iteration order.  The
third conjunct shows the stream does remain sensitive to which value is
paired with which key. -/
theorem C6_code_eval :
    values_eq (.obj [("a", .num (.uint 1)), ("b", .num (.uint 2))])
        (.obj [("b", .num (.uint 2)), ("a", .num (.uint 1))]) = true ∧
    hashStream (.obj [("a", .num (.uint 1)), ("b", .num (.uint 2))]) ≠
      hashStream (.obj [("b", .num (.uint 2)), ("a", .num (.uint 1))]) ∧
    hashStream (.obj [("a", .num (.uint 1)), ("b", .num (.uint 2))]) ≠
      hashStream (.obj [("a", .num (.uint 2)), ("b", .num (.uint 1))]) := by
  decide

/-- Claim C7.  On the schema `{"properties": {"a": {"minimum": 5}}}` and
instance `{"a": 1}`, the run fails with the `minimum` error whose
accumulated instance path is `["a"]` and accumulated schema path is
`["minimum", "a", "properties"]`; the rendered (reversed, slash-joined)
paths are `a` and `properties/a/minimum`. -/
theorem C7_thm :
    run_validators 5 c7Inst c7Schema = .err c7Err ∧
    renderPath c7Err.instance_path = "a" ∧
    renderPath c7Err.schema_path = "properties/a/minimum" := by
  decide

/-- Claim C8, counterexample.  With `items: true` — a single non-array
(boolean) schema — `additionalItems: false` is not a no-op: the guard of
`validate_additionalItems` exempts only object-valued `items`, so the
one-element array is rejected (`len_items` is `0`). -/
theorem C8_counterexample :
    run_validators 5 (.arr [.null])
        (.obj [("items", .bool true), ("additionalItems", .bool false)]) =
      .err { msg := "Additional items are not allowed", instance_path := [],
             schema_path := ["additionalItems"] } := by
  decide

/-- Claim C8, as amended.  The `additionalItems` rule is a no-op exactly
when the enclosing schema has no `items` key or its `items` value is an
object (mapping) schema; for every other `items` value, `len_items` is
the length of the `items` array (`0` when `items` is not an array, in
particular for boolean `items`), a `false` keyword value fails exactly
when a sequence instance is longer than `len_items`, and an
object-schema keyword value succeeds exactly when every element at
index ≥ `len_items` passes the recursive run; the spec's tuple example
behaves as claimed. -/
theorem C8_amended (rv : JValue → JValue → RResult)
    (parentO : List (String × JValue)) (instA : List JValue) (av : JValue) :
    (lookupJ "items" parentO = none →
      ∀ inst, validate_additionalItems rv inst av parentO = .ok) ∧
    (∀ m, lookupJ "items" parentO = some (.obj m) →
      ∀ inst, validate_additionalItems rv inst av parentO = .ok) ∧
    (∀ itemsV, lookupJ "items" parentO = some itemsV →
      isObjJ itemsV = false →
      (validate_additionalItems rv (.arr instA) (.bool false) parentO =
        (if itemsLen itemsV < instA.length then
          .err (ValidationError.new "Additional items are not allowed")
        else .ok)) ∧
      (∀ m2, validate_additionalItems rv (.arr instA) (.obj m2) parentO =
          .ok ↔
        ∀ x ∈ instA.drop (itemsLen itemsV), rv x (.obj m2) = .ok)) ∧
    (run_validators 5 (.arr [.num (.uint 1), .str "x"]) c8TupleSchema =
      .err { msg := "Additional items are not allowed", instance_path := [],
             schema_path := ["additionalItems"] }) ∧
    (run_validators 5 (.arr [.num (.uint 1)]) c8TupleSchema = .ok) := by
  refine ⟨?_, ?_, ?_, by decide, by decide⟩
  · intro h inst
    simp [validate_additionalItems, h]
  · intro m h inst
    simp [validate_additionalItems, h]
  · intro itemsV h hno
    constructor
    · cases itemsV <;>
        simp_all [validate_additionalItems, isObjJ, itemsLen]
    · intro m2
      cases itemsV <;>
        simp_all [validate_additionalItems, isObjJ, itemsLen, aiLoop_ok_iff]

/-- Claim C8, witness for the amended theorem: `items: true` with a
one-element array and `additionalItems: false` yields the failure, and
the same enclosing schema with object-valued `additionalItems` `{}`
succeeds since the recursive run accepts the element past the prefix. -/
theorem C8_amended_witness :
    validate_additionalItems (run_validators 1) (.arr [.null]) (.bool false)
        [("items", .bool true)] =
      .err (ValidationError.new "Additional items are not allowed") := by
  have h := (C8_amended (run_validators 1) [("items", .bool true)] [.null]
    (.bool false)).2.2.1 (.bool true) rfl rfl
  simpa using h.1

/-- Claim C9.  A boolean `true` schema accepts every instance at every
positive fuel, and a boolean `false` schema rejects every instance with
the generic error carrying empty instance and schema paths. -/
theorem C9_thm (inst : JValue) (n : Nat) :
    run_validators (n + 1) inst (.bool true) = .ok ∧
    run_validators (n + 1) inst (.bool false) =
      .err { msg := "False schema always fails", instance_path := [],
             schema_path := [] } :=
  ⟨rfl, rfl⟩

/-- Claim C10, counterexample.  With the float-encoded bound
`{"maxItems": 2.5}` and the three-element sequence, the rule panics in
`schema.as_u64().unwrap()` instead of failing with a
`ValidationError`. -/
theorem C10_counterexample :
    run_validators 1 (.arr [.null, .null, .null])
        (.obj [("maxItems", .num (.float (5 / 2)))]) =
      .crashed unwrapMsg := by
  decide

/-- Claim C10, as amended.  For every sequence instance whose length
exceeds an unsigned-integer-encoded `maxItems` bound, the rule fails
with a `ValidationError` whose message is the string `"minItems"`. -/
theorem C10_amended (fuel : Nat) (instA : List JValue) (bound : Nat)
    (h : bound < instA.length) :
    run_validators (fuel + 1) (.arr instA)
        (.obj [("maxItems", .num (.uint bound))]) =
      .err { msg := "minItems", instance_path := [],
             schema_path := ["maxItems"] } := by
  simp [run_validators, run_step, runKeywords, lookupJ, get_validator,
    validate_maxItems, JNum.as_u64, h, ValidationError.new]

/-- Claim C10, witness for the amended theorem at the two-element
sequence against the bound `1`. -/
theorem C10_amended_witness :
    run_validators 1 (.arr [.null, .null])
        (.obj [("maxItems", .num (.uint 1))]) =
      .err { msg := "minItems", instance_path := [],
             schema_path := ["maxItems"] } :=
  C10_amended 0 [.null, .null] 1 (by decide)

end JsonSchemaValid
